import Mathlib

/-
Shallow embedding of the rose-title-changer repository (Rust) for verification.

Source files embedded here:
  src/helpers.rs         : job_id_to_name, sig_scan
  src/process_memory.rs  : read_bytes, read_u32, read_u64, read_string,
                           get_module_begin_end
  src/main.rs            : Game, MyApp::find_games, MyApp::set_titles

Modelling conventions:
  - Remote process memory is a partial byte map `Mem : Nat -> Option Nat`;
    `none` at an address means reading that byte fails (inaccessible memory).
    A multi-byte read fails when any of its bytes is missing, mirroring the
    atomic success or failure of ReadProcessMemory plus the short-read check.
  - Machine integers are Nat. Address arithmetic that can wrap a u64 in the
    compiled program carries an explicit `% W` with `W = 2 ^ 64` where the
    wrap is observable. The one subtraction in sig_scan is modelled checked:
    an underflow is a panic (the debug-build behaviour of Rust), encoded as
    `Except.error ()`.
  - The unbounded byte loop of read_string takes an explicit fuel argument;
    with fuel at least the distance to the first zero byte the model agrees
    with the source loop, and `none` covers both a failed byte read and
    exhausted fuel.
  - The skidscan crate is external to the repository: a compiled signature
    is a list of tokens, `some b` an exact byte, `none` a wildcard, and its
    scan returns the earliest offset at which every token matches, per the
    documented behaviour of the crate.
-/

set_option autoImplicit false

namespace RoseTitle

/-- Width of usize / u64 on the target: 2 ^ 64. -/
def W : Nat := 2 ^ 64

/-- Remote process memory: a partial map from byte addresses to byte values. -/
abbrev Mem := Nat → Option Nat

/-- Whether the `n` bytes starting at `addr` are all present in memory. -/
def allBytesPresent (mem : Mem) : Nat → Nat → Bool
  | _, 0 => true
  | addr, n + 1 =>
    if (mem addr).isSome then allBytesPresent mem (addr + 1) n else false

/-- The `n` bytes starting at `addr`, defaulting each missing byte to 0 (only
used under an allBytesPresent guard). -/
def bytesFrom (mem : Mem) : Nat → Nat → List Nat
  | _, 0 => []
  | addr, n + 1 => (mem addr).getD 0 :: bytesFrom mem (addr + 1) n

/-- read_bytes of process_memory.rs: read `n` consecutive bytes starting at
`addr`; fails (returns `none`) when any byte is inaccessible, mirroring the
all-or-nothing ReadProcessMemory call plus the short-read check. -/
def read_bytes (mem : Mem) (addr n : Nat) : Option (List Nat) :=
  if allBytesPresent mem addr n then some (bytesFrom mem addr n) else none

/-- Little-endian value of a byte list, as in `from_le_bytes`. -/
def leVal (bs : List Nat) : Nat :=
  bs.foldr (fun b acc => b + 256 * acc) 0

/-- read_u32 of process_memory.rs: 4-byte little-endian read. -/
def read_u32 (mem : Mem) (addr : Nat) : Option Nat :=
  (read_bytes mem addr 4).map leVal

/-- read_u64 of process_memory.rs: 8-byte little-endian read. -/
def read_u64 (mem : Mem) (addr : Nat) : Option Nat :=
  (read_bytes mem addr 8).map leVal

/-- job_id_to_name of helpers.rs: fixed lookup table from job id to display
name, defaulting to "Unknown". -/
def job_id_to_name (job_id : Nat) : String :=
  match job_id with
  | 0 => "Visitor"
  | 111 => "Soldier"
  | 121 => "Knight"
  | 122 => "Champion"
  | 211 => "Muse"
  | 221 => "Mage"
  | 222 => "Cleric"
  | 311 => "Hawker"
  | 321 => "Raider"
  | 322 => "Scout"
  | 411 => "Dealer"
  | 421 => "Bourgeois"
  | 422 => "Artisan"
  | _ => "Unknown"

/-- A compiled skidscan signature: `some b` is an exact byte, `none` a
wildcard token. -/
abbrev Sig := List (Option Nat)

/-- Whether every signature token matches the corresponding leading byte of
the buffer (false when the buffer is shorter than the signature). -/
def tokensMatch : Sig → List Nat → Bool
  | [], _ => true
  | _ :: _, [] => false
  | t :: ts, b :: bs =>
    (match t with
     | none => true
     | some v => v == b) && tokensMatch ts bs

/-- Earliest offset, counting from `k`, at which the signature matches the
buffer. -/
def scanFrom (sig : Sig) : List Nat → Nat → Option Nat
  | [], k => if sig.isEmpty then some k else none
  | b :: bs, k =>
    if tokensMatch sig (b :: bs) then some k else scanFrom sig bs (k + 1)

/-- Signature::scan of the skidscan crate: earliest matching offset in the
buffer. -/
def scanBuf (sig : Sig) (buf : List Nat) : Option Nat :=
  scanFrom sig buf 0

/-- Loop body of sig_scan (helpers.rs lines 44-53). The buffer starts as
4096 zeros; a chunk read that fails leaves the buffer contents unchanged
(its result is discarded by the source), and the 4096-byte buffer is scanned
either way. On a match at offset `k` the source computes
`current_chunk + internal_address - 1`; the subtraction is modelled checked,
so `cursor + k = 0` is a panic (`Except.error ()`). The `steps` argument is
structural fuel: the loop advances the cursor by the buffer length 4096 each
iteration, so `e - b` steps always suffice for the range `[b, e)`. -/
def sigScanLoop (sig : Sig) (mem : Mem) (e : Nat) :
    Nat → Nat → List Nat → Except Unit (Option Nat)
  | 0, _, _ => .ok none
  | steps + 1, cursor, buf =>
    if cursor < e then
      let buf2 := (read_bytes mem cursor 4096).getD buf
      match scanBuf sig buf2 with
      | some k =>
        if cursor + k = 0 then .error () else .ok (some (cursor + k - 1))
      | none => sigScanLoop sig mem e steps (cursor + 4096) buf2
    else .ok none

/-- sig_scan of helpers.rs: chunked scan of remote memory `[b, e)` in
4096-byte windows. Result `.ok (some a)` is a found address, `.ok none` is
no match, `.error ()` is the underflow panic of the `- 1` adjustment. -/
def sig_scan (sig : Sig) (mem : Mem) (b e : Nat) : Except Unit (Option Nat) :=
  sigScanLoop sig mem e (e - b) b (List.replicate 4096 0)

/-- Byte loop of read_string (process_memory.rs lines 141-149): collect bytes
from `addr` up to the first zero byte. `none` is a failed byte read (the `?`
propagation of the source) or exhausted fuel; the fuel is an artifact bounding
the unbounded source loop. -/
def readStringBytes (mem : Mem) (addr : Nat) : Nat → Option (List Nat)
  | 0 => none
  | fuel + 1 =>
    match mem addr with
    | none => none
    | some 0 => some []
    | some b => (readStringBytes mem (addr + 1) fuel).map (b :: ·)

/-- Whether a byte is a UTF-8 continuation byte (10xxxxxx). -/
def utf8Cont (b : Nat) : Bool :=
  0x80 ≤ b && b < 0xC0

/-- Strict UTF-8 decoding, as performed by String::from_utf8 of Rust: rejects
continuation bytes in lead position, overlong encodings, surrogate code
points and code points above 0x10FFFF. The fuel is the list length, making
the recursion structural. -/
def utf8DecodeAux : Nat → List Nat → Option (List Char)
  | _, [] => some []
  | 0, _ :: _ => none
  | fuel + 1, b :: rest =>
    if b < 0x80 then
      (utf8DecodeAux fuel rest).map (Char.ofNat b :: ·)
    else if b < 0xC2 then
      none
    else if b < 0xE0 then
      match rest with
      | c1 :: rest2 =>
        if utf8Cont c1 then
          (utf8DecodeAux fuel rest2).map
            (Char.ofNat ((b - 0xC0) * 0x40 + (c1 - 0x80)) :: ·)
        else none
      | [] => none
    else if b < 0xF0 then
      match rest with
      | c1 :: c2 :: rest2 =>
        let cp := (b - 0xE0) * 0x1000 + (c1 - 0x80) * 0x40 + (c2 - 0x80)
        if utf8Cont c1 && utf8Cont c2 && 0x800 ≤ cp &&
            !(0xD800 ≤ cp && cp < 0xE000) then
          (utf8DecodeAux fuel rest2).map (Char.ofNat cp :: ·)
        else none
      | _ => none
    else if b < 0xF5 then
      match rest with
      | c1 :: c2 :: c3 :: rest2 =>
        let cp := (b - 0xF0) * 0x40000 + (c1 - 0x80) * 0x1000 +
          (c2 - 0x80) * 0x40 + (c3 - 0x80)
        if utf8Cont c1 && utf8Cont c2 && utf8Cont c3 && 0x10000 ≤ cp &&
            cp < 0x110000 then
          (utf8DecodeAux fuel rest2).map (Char.ofNat cp :: ·)
        else none
      | _ => none
    else none

/-- Strict UTF-8 decoding of a byte list. -/
def utf8Decode (bs : List Nat) : Option (List Char) :=
  utf8DecodeAux bs.length bs

/-- read_string of process_memory.rs: bytes up to the first zero byte, then
`String::from_utf8(buffer).unwrap_or(String::from(""))` - strict UTF-8 with
the empty string as the fallback for invalid bytes. -/
def read_string (mem : Mem) (addr fuel : Nat) : Option String :=
  (readStringBytes mem addr fuel).map (fun bs =>
    match utf8Decode bs with
    | some cs => String.mk cs
    | none => "")

/-- One MODULEENTRY32 of the module snapshot: the (conceptually 256-byte)
szModule name field and the module base address and size. -/
structure ModuleEntry where
  szModule : List Nat
  modBaseAddr : Nat
  modBaseSize : Nat

/-- Loop of get_module_begin_end (process_memory.rs lines 117-128): walk the
snapshot entries until the first 9 bytes of an entry name equal the requested
name bytes, or the entries run out; the entry where the walk stopped is
returned either way. -/
def moduleLoop (nameBytes : List Nat) (current : ModuleEntry) :
    List ModuleEntry → ModuleEntry
  | [] => current
  | next :: rest2 =>
    if current.szModule.take 9 = nameBytes then current
    else moduleLoop nameBytes next rest2

/-- get_module_begin_end of process_memory.rs: `entries` are the modules the
snapshot enumerates (empty when the snapshot or the first Module32First call
fails, the two `return None` paths); otherwise the base and end of the entry
the loop stopped at are returned. -/
def get_module_begin_end (entries : List ModuleEntry) (nameBytes : List Nat) :
    Option (Nat × Nat) :=
  match entries with
  | [] => none
  | first :: rest =>
    let m := moduleLoop nameBytes first rest
    some (m.modBaseAddr, m.modBaseAddr + m.modBaseSize)

/-- Game of main.rs: the per-process session record. -/
structure Game where
  pid : Nat
  signature_address : Nat
  player_address : Nat
  window_handle : Nat
  title : String
deriving DecidableEq

/-- The session map of main.rs, a HashMap from pid to Game, as an association
list. -/
abbrev Games := List (Nat × Game)

/-- HashMap::get on the session map. -/
def lookupGame (gs : Games) (pid : Nat) : Option Game :=
  (gs.find? (fun kv => kv.1 == pid)).map (·.2)

/-- HashMap::insert on the session map: replace the entry of an existing key,
otherwise append. -/
def insertGame (gs : Games) (pid : Nat) (g : Game) : Games :=
  if gs.any (fun kv => kv.1 == pid) then
    gs.map (fun kv => if kv.1 == pid then (pid, g) else kv)
  else gs ++ [(pid, g)]

/-- Pointer-chain resolution of main.rs find_games (lines 139-149): read the
4-byte displacement at `signature_address + 0x07` (0 on failure), and when it
is non-zero read the 8-byte pointer at
`signature_address + displacement + 11` (0 on failure). 0 means unresolved.
Address arithmetic wraps at the usize width. -/
def resolve_player (mem : Mem) (s : Nat) : Nat :=
  let d := (read_u32 mem ((s + 0x07) % W)).getD 0
  if d ≠ 0 then (read_u64 mem ((s + d + 11) % W)).getD 0 else 0

/-- Per-pid environment of one refresh cycle: whether OpenProcess succeeds,
the process memory, the module range get_module_begin_end reports, and the
window handle the window enumeration finds (0 when none). -/
structure ProcEnv where
  openOk : Bool
  mem : Mem
  module : Option (Nat × Nat)
  window : Nat

/-- The signature literal of main.rs line 134. -/
def theSignature : Sig :=
  [none, some 0x83, some 0xEC, some 0x28, none, some 0x8B, some 0x05,
   some 0x75, some 0xE5, some 0xFF, some 0x00, none, some 0x85, some 0xC0,
   none, some 0x24, none, some 0x38, some 0x6B, some 0x00, some 0x00, none,
   some 0x73, some 0x14, some 0xF4, some 0xFF, none, some 0x89, some 0x44,
   some 0x24, some 0x30, none, some 0x85, some 0xC0]

/-- The Game record find_games inserts for a pid once a signature address is
chosen: the pointer chain is resolved when the signature address is non-zero,
and the title starts empty (main.rs lines 139-175). -/
def mkGame (p : ProcEnv) (pid sigAddr : Nat) : Game :=
  { pid := pid
    signature_address := sigAddr
    player_address := if sigAddr ≠ 0 then resolve_player p.mem sigAddr else 0
    window_handle := p.window
    title := "" }

/-- The scan path of find_games (main.rs lines 129-137): module lookup, then
sig_scan with `unwrap_or(0)`; a missing module is the `continue` of theloop
and leaves the map untouched. A panic of sig_scan propagates. -/
def stepScan (p : ProcEnv) (gs : Games) (pid : Nat) : Except Unit Games :=
  match p.module with
  | none => .ok gs
  | some be =>
    match sig_scan theSignature p.mem be.1 be.2 with
    | .error u => .error u
    | .ok r => .ok (insertGame gs pid (mkGame p pid (r.getD 0)))

/-- One iteration of the find_games loop (main.rs lines 112-176) for one
observed pid: skip it when OpenProcess fails; reuse the cached signature
address when the session already resolved a non-zero player address,
otherwise scan; then resolve and insert. -/
def stepGame (env : Nat → ProcEnv) (gs : Games) (pid : Nat) :
    Except Unit Games :=
  let p := env pid
  if p.openOk then
    match lookupGame gs pid with
    | some old =>
      if old.player_address ≠ 0 then
        .ok (insertGame gs pid (mkGame p pid old.signature_address))
      else stepScan p gs pid
    | none => stepScan p gs pid
  else .ok gs

/-- MyApp::find_games of main.rs: fold the per-pid step over the observed
pids, then retain only the sessions whose pid was observed this cycle
(line 179). -/
def find_games (env : Nat → ProcEnv) (gs : Games) (found : List Nat) :
    Except Unit Games :=
  match List.foldlM (stepGame env) gs found with
  | .error u => .error u
  | .ok g => .ok (g.filter (fun kv => found.contains kv.1))

/-- Vec::join of Rust on strings: parts separated by `sep`. -/
def joinSep (sep : String) : List String → String
  | [] => ""
  | p :: ps => ps.foldl (fun acc q => acc ++ sep ++ q) p

/-- Title composition of MyApp::set_titles (main.rs lines 199-219) for one
session with player data at `pa`: the name string at `pa + 0x0B10` and the
job id at `pa + 0x3B1A` (each defaulting on failure), pushed in that order
subject to the two flags, joined with " - ". -/
def compute_title (showName showJob : Bool) (mem : Mem) (pa fuel : Nat) :
    String :=
  let name := (read_string mem (pa + 0x0B10) fuel).getD ""
  let jobId := (read_u32 mem (pa + 0x3B1A)).getD 0
  let parts :=
    (if showName then [name] else []) ++
    (if showJob then [job_id_to_name jobId] else [])
  joinSep " - " parts

/-- Decoder following the words of the specification (section 4.5) for
comparison with read_string: UTF-8 "with invalid sequences replaced rather
than failing the whole read" - each invalid sequence becomes U+FFFD and
decoding continues at the next byte. Only used to exhibit where the source
behaviour departs from those words. -/
def utf8LossyAux : Nat → List Nat → List Char
  | _, [] => []
  | 0, _ :: _ => []
  | fuel + 1, b :: rest =>
    if b < 0x80 then Char.ofNat b :: utf8LossyAux fuel rest
    else if b < 0xC2 then Char.ofNat 0xFFFD :: utf8LossyAux fuel rest
    else if b < 0xE0 then
      match rest with
      | c1 :: rest2 =>
        if utf8Cont c1 then
          Char.ofNat ((b - 0xC0) * 0x40 + (c1 - 0x80)) :: utf8LossyAux fuel rest2
        else Char.ofNat 0xFFFD :: utf8LossyAux fuel rest
      | [] => [Char.ofNat 0xFFFD]
    else if b < 0xF0 then
      match rest with
      | c1 :: c2 :: rest2 =>
        let cp := (b - 0xE0) * 0x1000 + (c1 - 0x80) * 0x40 + (c2 - 0x80)
        if utf8Cont c1 && utf8Cont c2 && 0x800 ≤ cp &&
            !(0xD800 ≤ cp && cp < 0xE000) then
          Char.ofNat cp :: utf8LossyAux fuel rest2
        else Char.ofNat 0xFFFD :: utf8LossyAux fuel rest
      | _ => [Char.ofNat 0xFFFD]
    else if b < 0xF5 then
      match rest with
      | c1 :: c2 :: c3 :: rest2 =>
        let cp := (b - 0xF0) * 0x40000 + (c1 - 0x80) * 0x1000 +
          (c2 - 0x80) * 0x40 + (c3 - 0x80)
        if utf8Cont c1 && utf8Cont c2 && utf8Cont c3 && 0x10000 ≤ cp &&
            cp < 0x110000 then
          Char.ofNat cp :: utf8LossyAux fuel rest2
        else Char.ofNat 0xFFFD :: utf8LossyAux fuel rest
      | _ => [Char.ofNat 0xFFFD]
    else Char.ofNat 0xFFFD :: utf8LossyAux fuel rest

/-- read_string as the specification words it: the collected bytes decoded
with replacement of invalid sequences. -/
def specReadStringLossy (mem : Mem) (addr fuel : Nat) : Option String :=
  (readStringBytes mem addr fuel).map (fun bs =>
    String.mk (utf8LossyAux bs.length bs))

/- Concrete inputs used by the witnesses and counterexamples below. -/

/-- Memory in which every byte reads as 0. -/
def memZero : Mem := fun _ => some 0

/-- Memory in which every read fails. -/
def memNone : Mem := fun _ => none

/-- Memory holding the bytes 48 FF 65 00 from address 0: a valid byte, an
invalid UTF-8 byte, a valid byte, the terminator. -/
def memInvalidUtf8 : Mem := fun a =>
  if a = 0 then some 0x48
  else if a = 1 then some 0xFF
  else if a = 2 then some 0x65
  else if a = 3 then some 0
  else none

/-- Memory of the end-to-end instance: name bytes "Hero\0" at 0x0B10 and job
id 322 (little-endian 42 01 00 00) at 0x3B1A. -/
def memHero : Mem := fun a =>
  if a = 0x0B10 then some 0x48
  else if a = 0x0B11 then some 0x65
  else if a = 0x0B12 then some 0x72
  else if a = 0x0B13 then some 0x6F
  else if a = 0x0B14 then some 0
  else if a = 0x3B1A then some 0x42
  else if a = 0x3B1B then some 0x01
  else if a = 0x3B1C then some 0
  else if a = 0x3B1D then some 0
  else none

/-- Memory for the pointer-chain witness: at signature address 0x2000 the
displacement 4 sits at 0x2007 and the pointer value 9 at 0x2000 + 4 + 11. -/
def memC4 : Mem := fun a =>
  if a = 0x2007 then some 4
  else if a = 0x2008 ∨ a = 0x2009 ∨ a = 0x200A then some 0
  else if a = 0x200F then some 9
  else if 0x2010 ≤ a ∧ a ≤ 0x2016 then some 0
  else none

/-- A session that already resolved: signature address 0x1000, player
address 0xAAAA. -/
def gameC1 : Game :=
  { pid := 5, signature_address := 0x1000, player_address := 0xAAAA,
    window_handle := 1, title := "" }

/-- Session map holding only gameC1. -/
def gamesC1 : Games := [(5, gameC1)]

/-- Memory whose pointer chain at the cached signature address 0x1000 now
yields 0xBBBB: displacement 0x20 at 0x1007, pointer value 0xBBBB at
0x1000 + 0x20 + 11 = 0x102B. -/
def memC1 : Mem := fun a =>
  if a = 0x1007 then some 0x20
  else if a = 0x1008 ∨ a = 0x1009 ∨ a = 0x100A then some 0
  else if a = 0x102B ∨ a = 0x102C then some 0xBB
  else if 0x102D ≤ a ∧ a ≤ 0x1032 then some 0
  else none

/-- Same as memC1 except the pointer value is 0xDDDD. -/
def memC1b : Mem := fun a =>
  if a = 0x1007 then some 0x20
  else if a = 0x1008 ∨ a = 0x1009 ∨ a = 0x100A then some 0
  else if a = 0x102B ∨ a = 0x102C then some 0xDD
  else if 0x102D ≤ a ∧ a ≤ 0x1032 then some 0
  else none

/-- Environment for the cache counterexample: the process opens, its memory
is memC1, and no module range is even available (the cached path never asks
for it). -/
def envC1 : Nat → ProcEnv := fun _ =>
  { openOk := true, mem := memC1, module := none, window := 1 }

/-- Same as envC1 with memC1b as the process memory. -/
def envC1b : Nat → ProcEnv := fun _ =>
  { openOk := true, mem := memC1b, module := none, window := 1 }

/-- Environment in which no process can be opened. -/
def envIdle : Nat → ProcEnv := fun _ =>
  { openOk := false, mem := memNone, module := none, window := 0 }

/-- An arbitrary session used by the eviction witness. -/
def gameC5 : Game :=
  { pid := 3, signature_address := 7, player_address := 0,
    window_handle := 0, title := "" }

/-- A module entry whose name does not match the requested one. -/
def moduleOther : ModuleEntry :=
  { szModule := [9, 9, 9, 9, 9, 9, 9, 9, 9, 0], modBaseAddr := 100,
    modBaseSize := 50 }

/- Helper lemmas. -/

theorem allBytesPresent_memZero (n : Nat) :
    ∀ a, allBytesPresent memZero a n = true := by
  induction n with
  | zero => intro a; rfl
  | succ m ih => intro a; simpa [allBytesPresent, memZero] using ih (a + 1)

theorem bytesFrom_memZero (n : Nat) :
    ∀ a, bytesFrom memZero a n = List.replicate n 0 := by
  induction n with
  | zero => intro a; rfl
  | succ m ih =>
    intro a; simp [bytesFrom, memZero, List.replicate_succ, ih (a + 1)]

theorem read_bytes_memZero (a n : Nat) :
    read_bytes memZero a n = some (List.replicate n 0) := by
  simp [read_bytes, allBytesPresent_memZero, bytesFrom_memZero]

theorem scanBuf_zeroSig (n : Nat) :
    scanBuf [some 0] (List.replicate (n + 1) 0) = some 0 := by
  simp [scanBuf, List.replicate_succ, scanFrom, tokensMatch]

/-- Unfolding of one loop iteration whose chunk read succeeds and matches at
offset `k` with `cursor + k` positive. -/
theorem sigScanLoop_match (sig : Sig) (mem : Mem) (e steps cursor : Nat)
    (buf bs : List Nat) (k : Nat) (hce : cursor < e)
    (hread : read_bytes mem cursor 4096 = some bs)
    (hscan : scanBuf sig bs = some k) (hpos : 1 ≤ cursor + k) :
    sigScanLoop sig mem e (steps + 1) cursor buf =
      .ok (some (cursor + k - 1)) := by
  rw [sigScanLoop]
  rw [if_pos hce, hread]
  simp only [Option.getD_some]
  rw [hscan]
  simp only []
  rw [if_neg (by omega)]

/-- A match at offset 0 of the first chunk of a scan from address 0 is the
underflow panic of the `- 1` adjustment. -/
theorem sig_scan_zero_panic (sig : Sig) (mem : Mem) (e : Nat) (bs : List Nat)
    (he : 0 < e) (hread : read_bytes mem 0 4096 = some bs)
    (hscan : scanBuf sig bs = some 0) :
    sig_scan sig mem 0 e = .error () := by
  obtain ⟨s, hs⟩ : ∃ s, e - 0 = s + 1 := ⟨e - 1, by omega⟩
  rw [sig_scan, hs, sigScanLoop]
  rw [if_pos he, hread]
  simp only [Option.getD_some]
  rw [hscan]
  simp

/-- Replacing the entry of an existing key leaves the key list unchanged. -/
theorem map_fst_replace (gs : Games) (pid : Nat) (g : Game) :
    (gs.map (fun kv => if kv.1 == pid then (pid, g) else kv)).map Prod.fst =
      gs.map Prod.fst := by
  induction gs with
  | nil => rfl
  | cons kv t ih =>
    by_cases hb : kv.1 == pid
    · simp only [List.map_cons, if_pos hb, ih]
      simp [beq_iff_eq.mp hb]
    · simp only [List.map_cons, if_neg hb, ih]

/-- insertGame only ever grows the key set. -/
theorem keys_insertGame (gs : Games) (pid : Nat) (g : Game) (k : Nat)
    (h : k ∈ gs.map Prod.fst) : k ∈ (insertGame gs pid g).map Prod.fst := by
  unfold insertGame
  split
  · rw [map_fst_replace]; exact h
  · simp only [List.map_append]
    exact List.mem_append_left _ h

/-- One find_games iteration only ever grows the key set of the session
map. -/
theorem stepGame_keys (env : Nat → ProcEnv) (gs gs2 : Games) (pid : Nat)
    (h : stepGame env gs pid = .ok gs2) (k : Nat)
    (hk : k ∈ gs.map Prod.fst) : k ∈ gs2.map Prod.fst := by
  have hscanCase : ∀ gs3, stepScan (env pid) gs pid = .ok gs3 →
      k ∈ gs3.map Prod.fst := by
    intro gs3 hsc
    cases hm : (env pid).module with
    | none =>
      simp only [stepScan, hm] at hsc
      exact (Except.ok.inj hsc) ▸ hk
    | some be =>
      simp only [stepScan, hm] at hsc
      cases hs : sig_scan theSignature (env pid).mem be.1 be.2 with
      | error u => rw [hs] at hsc; exact absurd hsc (by simp)
      | ok r =>
        rw [hs] at hsc
        exact (Except.ok.inj hsc) ▸ keys_insertGame _ _ _ _ hk
  by_cases ho : (env pid).openOk
  · cases hl : lookupGame gs pid with
    | some old =>
      by_cases hp : old.player_address ≠ 0
      · simp only [stepGame, ho, if_true, hl] at h
        rw [if_pos hp] at h
        exact (Except.ok.inj h) ▸ keys_insertGame _ _ _ _ hk
      · simp only [stepGame, ho, if_true, hl] at h
        rw [if_neg hp] at h
        exact hscanCase gs2 h
    | none =>
      simp only [stepGame, ho, if_true, hl] at h
      exact hscanCase gs2 h
  · simp only [stepGame, ho] at h
    simp only [Bool.false_eq_true, if_false] at h
    exact (Except.ok.inj h) ▸ hk

/-- The find_games fold only ever grows the key set of the session map. -/
theorem foldlM_stepGame_keys (env : Nat → ProcEnv) :
    ∀ (found : List Nat) (gs gs2 : Games),
      List.foldlM (stepGame env) gs found = .ok gs2 →
      ∀ k, k ∈ gs.map Prod.fst → k ∈ gs2.map Prod.fst := by
  intro found
  induction found with
  | nil =>
    intro gs gs2 h k hk
    rw [List.foldlM_nil] at h
    exact (Except.ok.inj h) ▸ hk
  | cons p ps ih =>
    intro gs gs2 h k hk
    rw [List.foldlM_cons] at h
    cases hstep : stepGame env gs p with
    | error u =>
      rw [hstep] at h
      exact absurd h (by simp [Bind.bind, Except.bind])
    | ok gs1 =>
      rw [hstep] at h
      have h2 : List.foldlM (stepGame env) gs1 ps = .ok gs2 := by
        simpa [Bind.bind, Except.bind] using h
      exact ih gs1 gs2 h2 k (stepGame_keys env gs gs1 p hstep k hk)

/-- When no entry matches, the module loop stops at the last entry walked. -/
theorem moduleLoop_no_match (nameBytes : List Nat) :
    ∀ (rest : List ModuleEntry) (current : ModuleEntry),
      current.szModule.take 9 ≠ nameBytes →
      (∀ m ∈ rest, m.szModule.take 9 ≠ nameBytes) →
      moduleLoop nameBytes current rest = rest.getLastD current := by
  intro rest
  induction rest with
  | nil => intro current _ _; rfl
  | cons next rest2 ih =>
    intro current hcur hrest
    simp only [moduleLoop, if_neg hcur]
    rw [ih next (hrest next (List.mem_cons_self _ _))
      (fun m hm => hrest m (List.mem_cons_of_mem _ hm))]
    rw [List.getLastD_cons]

/- Claim theorems. -/

/-- C1, counterexample: a session with non-zero resolved player address
(0xAAAA) is refreshed with the cached signature address 0x1000, yet the new
player address is re-read through the pointer chain: two memories differing
only at the pointer-chain addresses give sessions with player addresses
0xBBBB and 0xDDDD, neither the cached 0xAAAA, so the resolve step is not
skipped. -/
theorem c1_counterexample :
    find_games envC1 gamesC1 [5] = .ok [(5,
      { pid := 5, signature_address := 0x1000, player_address := 0xBBBB,
        window_handle := 1, title := "" })] ∧
    find_games envC1b gamesC1 [5] = .ok [(5,
      { pid := 5, signature_address := 0x1000, player_address := 0xDDDD,
        window_handle := 1, title := "" })] ∧
    (0xBBBB : Nat) ≠ 0xAAAA ∧ (0xDDDD : Nat) ≠ 0xBBBB :=
  ⟨rfl, rfl, by decide, by decide⟩

/-- C1, amended: for a tracked pid whose session has a non-zero resolved
player address, the refresh reuses the cached signature address and skips
the module lookup and the chunked signature scan (the result does not
depend on the module range or on any scan), but it re-runs the pointer-chain
resolve at the cached signature address in every cycle. -/
theorem c1_cache_skips_scan_but_resolves_again :
    ∀ (env : Nat → ProcEnv) (gs : Games) (pid : Nat) (old : Game),
      lookupGame gs pid = some old → old.player_address ≠ 0 →
      (env pid).openOk = true →
      stepGame env gs pid = .ok (insertGame gs pid
        { pid := pid, signature_address := old.signature_address,
          player_address :=
            if old.signature_address ≠ 0 then
              resolve_player (env pid).mem old.signature_address
            else 0,
          window_handle := (env pid).window, title := "" }) := by
  intro env gs pid old hl hp ho
  simp only [stepGame, ho, if_true, hl]
  rw [if_pos hp]
  rfl

/-- C1, witness for the amended theorem at the concrete cached session. -/
theorem c1_witness :
    stepGame envC1 gamesC1 5 = .ok (insertGame gamesC1 5
      { pid := 5, signature_address := gameC1.signature_address,
        player_address :=
          if gameC1.signature_address ≠ 0 then
            resolve_player (envC1 5).mem gameC1.signature_address
          else 0,
        window_handle := (envC1 5).window, title := "" }) :=
  c1_cache_skips_scan_but_resolves_again envC1 gamesC1 5 gameC1 rfl
    (by decide) rfl

/-- C2, counterexample: over a range whose every read fails, the zero-filled
initial buffer is still scanned, so the signature 00 is reported as a match
at the failed-read chunk (address 4096 + 0 - 1) instead of the chunk being
treated as a non-match (which would end in .ok none). -/
theorem c2_counterexample :
    sig_scan [some 0] memNone 4096 8192 = .ok (some 4095) ∧
    (Except.ok (some 4095) : Except Unit (Option Nat)) ≠ .ok none :=
  ⟨rfl, by simp⟩

/-- C2, amended: when the read of a chunk fails the read is not retried and
the chunk is scanned against the unchanged buffer contents (all zeros before
the first successful read, otherwise the bytes of the last successfully read
chunk); only when those stale contents do not match does scanning continue
at the next chunk, and a stale match is reported as an address in this
chunk. -/
theorem c2_failed_read_scans_stale_buffer :
    ∀ (sig : Sig) (mem : Mem) (e steps cursor : Nat) (buf : List Nat),
      cursor < e → read_bytes mem cursor 4096 = none →
      sigScanLoop sig mem e (steps + 1) cursor buf =
        (match scanBuf sig buf with
         | some k =>
           if cursor + k = 0 then .error ()
           else .ok (some (cursor + k - 1))
         | none => sigScanLoop sig mem e steps (cursor + 4096) buf) := by
  intro sig mem e steps cursor buf hce hread
  rw [sigScanLoop, if_pos hce, hread]
  rfl

/-- C2, witness for the amended theorem at a concrete failed read. -/
theorem c2_witness :
    sigScanLoop [some 0] memNone 8192 (0 + 1) 4096 (List.replicate 4096 0) =
      (match scanBuf [some 0] (List.replicate 4096 0) with
       | some k =>
         if 4096 + k = 0 then .error ()
         else .ok (some (4096 + k - 1))
       | none =>
         sigScanLoop [some 0] memNone 8192 0 (4096 + 4096)
           (List.replicate 4096 0)) :=
  c2_failed_read_scans_stale_buffer [some 0] memNone 8192 0 4096
    (List.replicate 4096 0) (by decide) rfl

/-- C3, counterexample: when the first match is at local offset 0 of the
chunk at cursor 0 the function does not return Some(cursor + offset - 1);
the subtraction underflows and the call panics (here: .error ()). -/
theorem c3_counterexample :
    sig_scan [some 0] memZero 0 4096 = .error () ∧
    (Except.error () : Except Unit (Option Nat)) ≠ .ok (some (0 + 0 - 1)) :=
  ⟨sig_scan_zero_panic [some 0] memZero 4096 (List.replicate 4096 0)
      (by decide) (read_bytes_memZero 0 4096) (scanBuf_zeroSig 4095),
    by simp⟩

/-- C3, amended: whenever the chunk at `cursor` reads successfully and the
signature first matches it at local offset `k` with `cursor + k` at least 1,
the scan returns Some(cursor + k - 1); in particular for a first-chunk match
of sig_scan over `[b, e)` the result is Some(b + k - 1). -/
theorem c3_match_offset_adjustment :
    (∀ (sig : Sig) (mem : Mem) (e steps cursor : Nat) (buf bs : List Nat)
      (k : Nat), cursor < e → read_bytes mem cursor 4096 = some bs →
      scanBuf sig bs = some k → 1 ≤ cursor + k →
      sigScanLoop sig mem e (steps + 1) cursor buf =
        .ok (some (cursor + k - 1))) ∧
    (∀ (sig : Sig) (mem : Mem) (b e : Nat) (bs : List Nat) (k : Nat),
      b < e → read_bytes mem b 4096 = some bs → scanBuf sig bs = some k →
      1 ≤ b + k → sig_scan sig mem b e = .ok (some (b + k - 1))) := by
  constructor
  · intro sig mem e steps cursor buf bs k hce hread hscan hpos
    exact sigScanLoop_match sig mem e steps cursor buf bs k hce hread hscan hpos
  · intro sig mem b e bs k hbe hread hscan hpos
    obtain ⟨s, hs⟩ : ∃ s, e - b = s + 1 := ⟨e - b - 1, by omega⟩
    rw [sig_scan, hs]
    exact sigScanLoop_match sig mem e s b _ bs k hbe hread hscan hpos

/-- C3, witness for the amended theorem: a match at offset 0 of the chunk at
cursor 4096 returns address 4095. -/
theorem c3_witness :
    sig_scan [some 0] memZero 4096 8192 = .ok (some (4096 + 0 - 1)) :=
  c3_match_offset_adjustment.2 [some 0] memZero 4096 8192
    (List.replicate 4096 0) 0 (by decide) (read_bytes_memZero 4096 4096)
    (scanBuf_zeroSig 4095) (by decide)

/-- C4: the pointer chain reads the 4-byte little-endian displacement D at
s + 0x07, is unresolved (0) on a failed read or D = 0, otherwise reads the
8-byte little-endian value V at s + D + 11, is unresolved on a failed read,
and yields V otherwise (V = 0 being the unresolved sentinel). -/
theorem c4_pointer_chain :
    ∀ (mem : Mem) (s : Nat), s + 0x07 < W →
      ((read_u32 mem (s + 0x07) = none ∨ read_u32 mem (s + 0x07) = some 0) →
        resolve_player mem s = 0) ∧
      (∀ d, read_u32 mem (s + 0x07) = some d → d ≠ 0 → s + d + 11 < W →
        (read_u64 mem (s + d + 11) = none → resolve_player mem s = 0) ∧
        (∀ v, read_u64 mem (s + d + 11) = some v →
          resolve_player mem s = v)) := by
  intro mem s hs
  have hmod : (s + 0x07) % W = s + 0x07 := Nat.mod_eq_of_lt hs
  constructor
  · intro h
    rcases h with h | h <;> simp [resolve_player, hmod, h]
  · intro d hd hdne hlt
    have hmod2 : (s + d + 11) % W = s + d + 11 := Nat.mod_eq_of_lt hlt
    refine ⟨fun h => ?_, fun v hv => ?_⟩
    · simp [resolve_player, hmod, hd, hdne, hmod2, h]
    · simp [resolve_player, hmod, hd, hdne, hmod2, hv]

/-- C4, witness: displacement 4 at 0x2007 and value 9 at 0x2000 + 4 + 11
resolve to 9. -/
theorem c4_witness : resolve_player memC4 0x2000 = 9 :=
  ((c4_pointer_chain memC4 0x2000 (by decide)).2 4 rfl (by decide)
    (by decide)).2 9 rfl

/-- C5: after a completed refresh, every session key was observed this cycle,
and every previously tracked key that was observed is still present - only
sessions of unobserved (exited) pids are removed. -/
theorem c5_eviction :
    ∀ (env : Nat → ProcEnv) (gs : Games) (found : List Nat) (gs2 : Games),
      find_games env gs found = .ok gs2 →
      (∀ k, k ∈ gs2.map Prod.fst → k ∈ found) ∧
      (∀ k, k ∈ gs.map Prod.fst → k ∈ found → k ∈ gs2.map Prod.fst) := by
  intro env gs found gs2 h
  unfold find_games at h
  cases hf : List.foldlM (stepGame env) gs found with
  | error u => rw [hf] at h; exact absurd h (by simp)
  | ok g =>
    rw [hf] at h
    have hg2 : gs2 = g.filter (fun kv => found.contains kv.1) :=
      (Except.ok.inj h).symm
    subst hg2
    constructor
    · intro k hk
      rcases List.mem_map.mp hk with ⟨kv, hkv, hfst⟩
      have hc := (List.mem_filter.mp hkv).2
      rw [← hfst]
      exact List.elem_iff.mp hc
    · intro k hk hkf
      have hkg := foldlM_stepGame_keys env found gs g hf k hk
      rcases List.mem_map.mp hkg with ⟨kv, hkv, hfst⟩
      refine List.mem_map.mpr ⟨kv, List.mem_filter.mpr ⟨hkv, ?_⟩, hfst⟩
      rw [show kv.1 = k from hfst]
      exact List.elem_iff.mpr hkf

/-- C5, witness: a tracked and observed pid survives the refresh. -/
theorem c5_witness :
    (3 : Nat) ∈ (([(3, gameC5)] : Games).map Prod.fst) :=
  (c5_eviction envIdle [(3, gameC5)] [3] [(3, gameC5)] rfl).2 3
    (by simp) (by simp)

/-- C6, counterexample: the name bytes 48 FF 65 (terminated by 00) contain an
invalid UTF-8 byte; the source returns the empty string (the whole buffer is
discarded by the unwrap_or fallback of String::from_utf8), not the
replacement-decoded string the specification describes, although the read
itself still succeeds. -/
theorem c6_counterexample :
    readStringBytes memInvalidUtf8 0 10 = some [0x48, 0xFF, 0x65] ∧
    read_string memInvalidUtf8 0 10 = some "" ∧
    specReadStringLossy memInvalidUtf8 0 10 = some "H�e" ∧
    ("" : String) ≠ "H�e" :=
  ⟨rfl, rfl, rfl, by decide⟩

/-- C6, amended: read_string collects the bytes up to the first zero byte
and decodes them as strict UTF-8; when the bytes are invalid UTF-8 the read
still succeeds but yields the empty string (the valid portion is discarded,
not kept with replacements); valid bytes decode unchanged. -/
theorem c6_strict_utf8_empty_fallback :
    ∀ (mem : Mem) (addr fuel : Nat) (bs : List Nat),
      readStringBytes mem addr fuel = some bs →
      (utf8Decode bs = none → read_string mem addr fuel = some "") ∧
      (∀ cs, utf8Decode bs = some cs →
        read_string mem addr fuel = some (String.mk cs)) := by
  intro mem addr fuel bs h
  refine ⟨fun hd => ?_, fun cs hd => ?_⟩
  · simp [read_string, h, hd]
  · simp [read_string, h, hd]

/-- C6, witness for the amended theorem at the invalid-UTF-8 memory. -/
theorem c6_witness : read_string memInvalidUtf8 0 10 = some "" :=
  (c6_strict_utf8_empty_fallback memInvalidUtf8 0 10 [0x48, 0xFF, 0x65]
    rfl).1 rfl

/-- C7: job_id_to_name realises exactly the fixed table (0 Visitor, 111
Soldier, 121 Knight, 122 Champion, 211 Muse, 221 Mage, 222 Cleric, 311
Hawker, 321 Raider, 322 Scout, 411 Dealer, 421 Bourgeois, 422 Artisan) and
returns the literal "Unknown" for every id outside it; in particular at 122
and 9999. -/
theorem c7_job_table :
    job_id_to_name 0 = "Visitor" ∧ job_id_to_name 111 = "Soldier" ∧
    job_id_to_name 121 = "Knight" ∧ job_id_to_name 122 = "Champion" ∧
    job_id_to_name 211 = "Muse" ∧ job_id_to_name 221 = "Mage" ∧
    job_id_to_name 222 = "Cleric" ∧ job_id_to_name 311 = "Hawker" ∧
    job_id_to_name 321 = "Raider" ∧ job_id_to_name 322 = "Scout" ∧
    job_id_to_name 411 = "Dealer" ∧ job_id_to_name 421 = "Bourgeois" ∧
    job_id_to_name 422 = "Artisan" ∧ job_id_to_name 9999 = "Unknown" ∧
    ∀ j, j ∉ ([0, 111, 121, 122, 211, 221, 222, 311, 321, 322, 411, 421,
      422] : List Nat) → job_id_to_name j = "Unknown" := by
  refine ⟨rfl, rfl, rfl, rfl, rfl, rfl, rfl, rfl, rfl, rfl, rfl, rfl, rfl,
    rfl, ?_⟩
  intro j hj
  unfold job_id_to_name
  split <;> simp_all

/-- C7, witness: an id outside the table maps to "Unknown". -/
theorem c7_witness : job_id_to_name 12345 = "Unknown" :=
  c7_job_table.2.2.2.2.2.2.2.2.2.2.2.2.2.2 12345 (by decide)

/-- C8: with both flags on the composed title is the player name, the
literal " - " separator and the job display name in that order; with a
single flag on it is that single part with no separator; and in the
end-to-end instance (name bytes "Hero\0", job id 322) the title is
"Hero - Scout". -/
theorem c8_title_composition :
    (∀ (mem : Mem) (pa fuel : Nat) (name : String) (jobId : Nat),
      read_string mem (pa + 0x0B10) fuel = some name →
      read_u32 mem (pa + 0x3B1A) = some jobId →
      compute_title true true mem pa fuel =
        name ++ " - " ++ job_id_to_name jobId ∧
      compute_title true false mem pa fuel = name ∧
      compute_title false true mem pa fuel = job_id_to_name jobId) ∧
    compute_title true true memHero 0 16 = "Hero - Scout" := by
  constructor
  · intro mem pa fuel name jobId hname hjob
    refine ⟨?_, ?_, ?_⟩ <;> simp [compute_title, hname, hjob, joinSep]
  · rfl

/-- C8, witness for the universally quantified part at the end-to-end
memory. -/
theorem c8_witness :
    compute_title true true memHero 0 16 =
      "Hero" ++ " - " ++ job_id_to_name 322 ∧
    compute_title true false memHero 0 16 = "Hero" ∧
    compute_title false true memHero 0 16 = job_id_to_name 322 :=
  c8_title_composition.1 memHero 0 16 "Hero" 322 rfl rfl

/-- C9: a sig_scan from address 0 whose first chunk reads successfully and
matches at local offset 0 panics on the underflowing subtraction instead of
returning an address, and every match with cursor + offset at least 1 is
returned with the subtraction well defined (adding 1 back recovers
cursor + offset). -/
theorem c9_underflow_panic :
    (∀ (sig : Sig) (mem : Mem) (e : Nat) (bs : List Nat),
      0 < e → read_bytes mem 0 4096 = some bs → scanBuf sig bs = some 0 →
      sig_scan sig mem 0 e = .error ()) ∧
    (∀ (sig : Sig) (mem : Mem) (e steps cursor : Nat) (buf bs : List Nat)
      (k : Nat), cursor < e → read_bytes mem cursor 4096 = some bs →
      scanBuf sig bs = some k → 1 ≤ cursor + k →
      sigScanLoop sig mem e (steps + 1) cursor buf =
        .ok (some (cursor + k - 1)) ∧ (cursor + k - 1) + 1 = cursor + k) := by
  constructor
  · exact fun sig mem e bs he hr hsc => sig_scan_zero_panic sig mem e bs he hr hsc
  · intro sig mem e steps cursor buf bs k hce hread hscan hpos
    exact ⟨sigScanLoop_match sig mem e steps cursor buf bs k hce hread hscan
      hpos, by omega⟩

/-- C9, witness: the panic at a concrete scan from address 0 over all-zero
memory. -/
theorem c9_witness : sig_scan [some 0] memZero 0 8192 = .error () :=
  c9_underflow_panic.1 [some 0] memZero 8192 (List.replicate 4096 0)
    (by decide) (read_bytes_memZero 0 4096) (scanBuf_zeroSig 4095)

/-- C10: whenever the module snapshot yields at least one entry the lookup
returns Some; and when no entry name matches in its first 9 bytes, the
returned pair is the base and end of the last module enumerated rather than
None. -/
theorem c10_module_lookup_never_fails :
    ∀ (nb : List Nat) (first : ModuleEntry) (rest : List ModuleEntry),
      (∃ p, get_module_begin_end (first :: rest) nb = some p) ∧
      ((∀ m ∈ first :: rest, m.szModule.take 9 ≠ nb) →
        get_module_begin_end (first :: rest) nb =
          some ((rest.getLastD first).modBaseAddr,
            (rest.getLastD first).modBaseAddr +
              (rest.getLastD first).modBaseSize)) := by
  intro nb first rest
  constructor
  · exact ⟨_, rfl⟩
  · intro hnm
    have hloop := moduleLoop_no_match nb rest first
      (hnm first (List.mem_cons_self _ _))
      (fun m hm => hnm m (List.mem_cons_of_mem _ hm))
    simp [get_module_begin_end, hloop]

/-- C10, witness: a one-entry snapshot with a non-matching name still yields
the base and end of that (last) entry. -/
theorem c10_witness :
    get_module_begin_end [moduleOther] [1, 2, 3] = some (100, 150) := by
  have h := (c10_module_lookup_never_fails [1, 2, 3] moduleOther []).2
    (by intro m hm
        rcases List.mem_singleton.mp hm with rfl
        decide)
  simpa [moduleOther] using h

end RoseTitle
